import Mathlib

/-!
Verification of the core of the uniswap-airdrop-bot repository
(src/src/main.rs): the airdrop ledger (AirdropState), the gas
computations, the dispatcher, and the event-monitoring loop of main.

The Rust program is embedded shallowly:
- the in-memory HashMap of recipients becomes an association list with
  replace-on-insert semantics (findRecord / removeKey / mapInsert);
- the state file airdrop_state.json becomes a FileState value; the JSON
  layer (serde_json to_string_pretty / from_str) round-trips the record
  type involved, so a well-formed file stores the recipients map itself,
  while malformed content and an existing-but-unreadable file are
  separate constructors;
- a panic (the expect call in load) is modelled as Option.none;
- fs write truncates before writing and is not atomic, so the file a
  failed write leaves behind is an oracle FileState (it may be the old
  content, empty, a partial prefix that does not parse, or anything
  else), not necessarily the previous file;
- each chain interaction of one loop iteration (owner_of, base-fee
  query, gas estimate, transaction submission) is an oracle outcome
  packed in an EventCtx, and the subscription stream is a list of
  Except-wrapped events, mirroring Option of Result items;
- machine integers (U256) are Nat; every quantity involved stays far
  below 2 to the power 256, where ethers U256 arithmetic agrees with Nat.
-/

/-- One persisted airdrop entry, mirroring struct AirdropRecord of
main.rs lines 38-44; the timestamp is an abstract instant. -/
structure AirdropRecord where
  address : String
  timestamp : Nat
  amount : String
  tx_hash : String
  deriving DecidableEq, Repr

/-- First entry of the association list whose key equals the argument,
mirroring HashMap lookup / contains_key. -/
def findRecord : List (String × AirdropRecord) → String → Option AirdropRecord
  | [], _ => none
  | (a, v) :: rest, k => if a = k then some v else findRecord rest k

/-- Removes every entry with the given key, the auxiliary step of
replace-on-insert. -/
def removeKey : List (String × AirdropRecord) → String → List (String × AirdropRecord)
  | [], _ => []
  | (a, v) :: rest, k => if a = k then removeKey rest k else (a, v) :: removeKey rest k

/-- HashMap insert: replaces any existing entry with the same key. -/
def mapInsert (m : List (String × AirdropRecord)) (k : String) (v : AirdropRecord) :
    List (String × AirdropRecord) :=
  (k, v) :: removeKey m k

/-- In-memory ledger, mirroring struct AirdropState of main.rs
lines 46-49. -/
structure AirdropState where
  recipients : List (String × AirdropRecord)
  deriving DecidableEq, Repr

/-- Durable state of the airdrop_state.json file: absent, existing but
not readable (fs read_to_string fails), readable with content that does
not parse, or readable with a well-formed recipients map. -/
inductive FileState where
  | absent
  | unreadable
  | malformed (raw : String)
  | content (m : List (String × AirdropRecord))
  deriving DecidableEq, Repr

/-- AirdropState load, main.rs lines 52-60: a missing file gives the
default (empty) state, a read failure panics through expect (modelled as
none), malformed content gives the default through unwrap_or_default,
and well-formed content gives the parsed state. -/
def AirdropState.load : FileState → Option AirdropState
  | .absent => some ⟨[]⟩
  | .unreadable => none
  | .malformed _ => some ⟨[]⟩
  | .content m => some ⟨m⟩

/-- AirdropState save, main.rs lines 62-66: serializes the state and
writes the whole file with fs write, which truncates before writing and
is not atomic. The Bool oracle says whether the write succeeds: on
success the file holds the serialized state; on failure the error is
returned and the file is left in an unspecified state (old content,
truncated, or partially written), given by the failLeft oracle. -/
def AirdropState.save (st : AirdropState) (failLeft : FileState) (writeOk : Bool) :
    FileState × Except String Unit :=
  if writeOk then (.content st.recipients, .ok ())
  else (failLeft, .error "write failed")

/-- AirdropState has_received_airdrop, main.rs lines 68-70: contains_key
on the recipients map. -/
def AirdropState.has_received_airdrop (st : AirdropState) (address : String) : Bool :=
  (findRecord st.recipients address).isSome

/-- Everything record_airdrop leaves behind: the new in-memory state,
the resulting file state, and whether the save-failure warning was
printed. The Rust method itself returns unit to its caller. -/
structure RecordOut where
  state : AirdropState
  file : FileState
  warned : Bool
  deriving DecidableEq, Repr

/-- AirdropState record_airdrop, main.rs lines 72-83: builds a record
with the current time, inserts it into the map unconditionally, then
tries to save; a save failure only prints a warning. The failLeft
argument is the oracle for the file a failed, non-atomic write would
leave behind. -/
def AirdropState.record_airdrop (st : AirdropState) (failLeft : FileState)
    (address amount txHash : String) (now : Nat) (saveOk : Bool) : RecordOut :=
  let rcd : AirdropRecord := ⟨address, now, amount, txHash⟩
  let st2 : AirdropState := ⟨mapInsert st.recipients address rcd⟩
  match st2.save failLeft saveOk with
  | (f2, .ok _) => ⟨st2, f2, false⟩
  | (f2, .error _) => ⟨st2, f2, true⟩

/-- get_minimum_gas_price, main.rs lines 86-99: queries the latest base
fee and adds one percent (integer division by 100); a query failure
propagates. -/
def get_minimum_gas_price : Except String Nat → Except String Nat
  | .error e => .error e
  | .ok baseFee => .ok (baseFee + baseFee / 100)

/-- estimate_minimum_gas, main.rs lines 101-114: queries the exact gas
estimate of the transfer call and adds a two percent buffer (integer
division by 50); a query failure propagates. -/
def estimate_minimum_gas : Except String Nat → Except String Nat
  | .error e => .error e
  | .ok gasEstimate => .ok (gasEstimate + gasEstimate / 50)

/-- send_airdrop, main.rs lines 116-133: builds one legacy transfer
transaction with the given gas parameters and submits it exactly once;
the chain either accepts it (returning the hash) or rejects it, and the
outcome is passed through unchanged. -/
def send_airdrop (recipient : String) (amount gasPrice gasLimit : Nat)
    (submission : Except String String) : Except String String :=
  submission

/-- Fixed reward, main.rs line 190: 100 tokens with 18 decimals. -/
def airdropAmount : Nat := 100000000000000000000

/-- Oracle outcomes of the chain and filesystem interactions of one
loop iteration; failedWrite is the file a failed state-file write would
leave behind (fs write is not atomic). -/
structure EventCtx where
  ownerOf : Except String String
  basefee : Except String Nat
  gasEstimate : Except String Nat
  submission : Except String String
  now : Nat
  saveOk : Bool
  failedWrite : FileState
  deriving Repr

/-- One transaction submission the loop performed: recipient, amount and
gas parameters, and whether the node accepted it. -/
structure Attempt where
  recipient : String
  amount : Nat
  price : Nat
  limit : Nat
  success : Bool
  deriving DecidableEq, Repr

/-- Outcome of one loop iteration: either the loop continues with an
updated state, or an error escapes the loop body and aborts main. -/
inductive StepOut where
  | next (st : AirdropState) (f : FileState)
  | halt (err : String)
  deriving DecidableEq, Repr

/-- Body of the event loop, main.rs lines 172-223: resolve the owner
(failure logged, event dropped), skip when the owner is already in the
ledger, compute gas price and limit (failures escape through the
question-mark operator and abort main), submit once, and on success
record the airdrop. Returns the outcome and the submissions made. -/
def processEvent (st : AirdropState) (f : FileState) (ctx : EventCtx) :
    StepOut × List Attempt :=
  match ctx.ownerOf with
  | .error _ => (.next st f, [])
  | .ok owner =>
    if st.has_received_airdrop owner then (.next st f, [])
    else
      match get_minimum_gas_price ctx.basefee with
      | .error e => (.halt e, [])
      | .ok gasPrice =>
        match estimate_minimum_gas ctx.gasEstimate with
        | .error e => (.halt e, [])
        | .ok gasLimit =>
          match send_airdrop owner airdropAmount gasPrice gasLimit ctx.submission with
          | .ok txHash =>
            let r := st.record_airdrop ctx.failedWrite owner (toString airdropAmount) txHash
              ctx.now ctx.saveOk
            (.next r.state r.file, [⟨owner, airdropAmount, gasPrice, gasLimit, true⟩])
          | .error _ => (.next st f, [⟨owner, airdropAmount, gasPrice, gasLimit, false⟩])

/-- The while-let loop of main, main.rs lines 172-225: items of the
subscription stream are processed in order; an error item fails the
Some-Ok pattern, so the loop exits and main returns Ok; an error escaping
a loop body makes main return it. The result carries the final state (or
the escaping error) and all submissions made. -/
def runLoop : AirdropState → FileState → List (Except String EventCtx) →
    Except String (AirdropState × FileState) × List Attempt
  | st, f, [] => (.ok (st, f), [])
  | st, f, .error _ :: _ => (.ok (st, f), [])
  | st, f, .ok ctx :: rest =>
    match processEvent st f ctx with
    | (.next st2 f2, sends) =>
      let r := runLoop st2 f2 rest
      (r.1, sends ++ r.2)
    | (.halt e, sends) => (.error e, sends)

/-- Number of submissions addressed to the given recipient. -/
def countAttemptsTo (r : String) (l : List Attempt) : Nat :=
  (l.filter (fun a => a.recipient = r)).length

/-- Number of accepted submissions addressed to the given recipient. -/
def countSuccessTo (r : String) (l : List Attempt) : Nat :=
  (l.filter (fun a => a.recipient = r ∧ a.success = true)).length

/-- Action component of a gas decision. -/
inductive GasAction where
  | Proceed
  | Defer (reason : String)
  deriving DecidableEq, Repr

/-- Transient gas decision produced per attempt. -/
structure GasDecision where
  price : Nat
  limit : Nat
  action : GasAction
  deriving DecidableEq, Repr

/-- Modelled from the spec: the Gated-retry gas policy of spec section
4.2 has no source file under src (only the estimated-minimum revision is
present there). Its decide operation reads the current market gas price
and compares it to the configured ceiling inclusively, on unscaled
smallest-unit integers: at or below the ceiling it proceeds with that
price and a fixed limit, above it it defers with reason price_too_high. -/
def gatedRetryDecide (ceiling fixedLimit marketPrice : Nat) : GasDecision :=
  if marketPrice ≤ ceiling then ⟨marketPrice, fixedLimit, .Proceed⟩
  else ⟨marketPrice, fixedLimit, .Defer "price_too_high"⟩

/-- The ledger record operation as the spec words it in section 4.1:
record returns a Result, reporting a persist failure to the caller. Used
only to compare the spec signature with the code, whose record_airdrop
returns unit and never surfaces the failure to its caller. -/
def specRecordResult (saveOk : Bool) : Except String Unit :=
  if saveOk then .ok () else .error "persist failed"

lemma findRecord_mapInsert_self (m : List (String × AirdropRecord)) (k : String)
    (v : AirdropRecord) : findRecord (mapInsert m k v) k = some v := by
  simp [mapInsert, findRecord]

lemma findRecord_removeKey (m : List (String × AirdropRecord)) (k r : String)
    (h : r ≠ k) : findRecord (removeKey m k) r = findRecord m r := by
  induction m with
  | nil => rfl
  | cons p rest ih =>
    obtain ⟨a, v⟩ := p
    by_cases ha : a = k
    · subst ha
      have har : ¬ a = r := fun hh => h hh.symm
      simp [removeKey, findRecord, har, ih]
    · by_cases har : a = r
      · subst har
        simp [removeKey, findRecord, ha]
      · simp [removeKey, findRecord, ha, har, ih]

lemma findRecord_mapInsert_ne (m : List (String × AirdropRecord)) (k r : String)
    (v : AirdropRecord) (h : r ≠ k) :
    findRecord (mapInsert m k v) r = findRecord m r := by
  have hk : ¬ k = r := fun hh => h hh.symm
  simp only [mapInsert, findRecord, hk, if_false]
  exact findRecord_removeKey m k r h

lemma record_state (st : AirdropState) (f : FileState) (a amt tx : String)
    (now : Nat) (so : Bool) :
    (st.record_airdrop f a amt tx now so).state =
      ⟨mapInsert st.recipients a ⟨a, now, amt, tx⟩⟩ := by
  unfold AirdropState.record_airdrop AirdropState.save
  cases so <;> simp

lemma record_save_true (st : AirdropState) (f : FileState) (a amt tx : String)
    (now : Nat) :
    st.record_airdrop f a amt tx now true =
      ⟨⟨mapInsert st.recipients a ⟨a, now, amt, tx⟩⟩,
       .content (mapInsert st.recipients a ⟨a, now, amt, tx⟩), false⟩ := rfl

lemma record_save_false (st : AirdropState) (f : FileState) (a amt tx : String)
    (now : Nat) :
    st.record_airdrop f a amt tx now false =
      ⟨⟨mapInsert st.recipients a ⟨a, now, amt, tx⟩⟩, f, true⟩ := rfl

lemma has_received_record (st : AirdropState) (f : FileState) (a amt tx : String)
    (now : Nat) (so : Bool) :
    (st.record_airdrop f a amt tx now so).state.has_received_airdrop a = true := by
  rw [record_state]
  simp [AirdropState.has_received_airdrop, findRecord_mapInsert_self]

lemma has_received_record_mono (st : AirdropState) (f : FileState)
    (a amt tx : String) (now : Nat) (so : Bool) (r : String)
    (h : st.has_received_airdrop r = true) :
    (st.record_airdrop f a amt tx now so).state.has_received_airdrop r = true := by
  rw [record_state]
  by_cases har : r = a
  · subst har
    simp [AirdropState.has_received_airdrop, findRecord_mapInsert_self]
  · simpa [AirdropState.has_received_airdrop,
      findRecord_mapInsert_ne st.recipients a r _ har] using h

lemma processEvent_spec (st : AirdropState) (f : FileState) (ctx : EventCtx) :
    (∃ e, processEvent st f ctx = (.halt e, [])) ∨
    (processEvent st f ctx = (.next st f, [])) ∨
    (∃ R p l, ctx.ownerOf = .ok R ∧ st.has_received_airdrop R = false ∧
      processEvent st f ctx = (.next st f, [⟨R, airdropAmount, p, l, false⟩])) ∨
    (∃ R p l tx, ctx.ownerOf = .ok R ∧ st.has_received_airdrop R = false ∧
      processEvent st f ctx =
        (.next (st.record_airdrop ctx.failedWrite R (toString airdropAmount) tx ctx.now ctx.saveOk).state
               (st.record_airdrop ctx.failedWrite R (toString airdropAmount) tx ctx.now ctx.saveOk).file,
         [⟨R, airdropAmount, p, l, true⟩])) := by
  rcases ho : ctx.ownerOf with e | owner
  · exact Or.inr (Or.inl (by simp [processEvent, ho]))
  by_cases hp : st.has_received_airdrop owner
  · exact Or.inr (Or.inl (by simp [processEvent, ho, hp]))
  rcases hb : ctx.basefee with e | bf
  · exact Or.inl ⟨e, by simp [processEvent, ho, hp, get_minimum_gas_price, hb]⟩
  rcases hg : ctx.gasEstimate with e | ge
  · exact Or.inl ⟨e, by
      simp [processEvent, ho, hp, get_minimum_gas_price, hb, estimate_minimum_gas, hg]⟩
  rcases hs : ctx.submission with e | tx
  · refine Or.inr (Or.inr (Or.inl ⟨owner, bf + bf / 100, ge + ge / 50, rfl, ?_, ?_⟩))
    · simpa using hp
    · simp [processEvent, ho, hp, get_minimum_gas_price, hb, estimate_minimum_gas, hg,
        send_airdrop, hs]
  · refine Or.inr (Or.inr (Or.inr ⟨owner, bf + bf / 100, ge + ge / 50, tx, rfl, ?_, ?_⟩))
    · simpa using hp
    · simp [processEvent, ho, hp, get_minimum_gas_price, hb, estimate_minimum_gas, hg,
        send_airdrop, hs]

lemma countAttemptsTo_nil (r : String) : countAttemptsTo r [] = 0 := rfl

lemma countAttemptsTo_cons (r : String) (a : Attempt) (l : List Attempt) :
    countAttemptsTo r (a :: l) =
      (if a.recipient = r then 1 else 0) + countAttemptsTo r l := by
  simp only [countAttemptsTo, List.filter_cons]
  split <;> simp_all <;> omega

lemma countSuccessTo_cons (r : String) (a : Attempt) (l : List Attempt) :
    countSuccessTo r (a :: l) =
      (if a.recipient = r ∧ a.success = true then 1 else 0) + countSuccessTo r l := by
  simp only [countSuccessTo, List.filter_cons]
  split <;> simp_all <;> omega

lemma countSuccessTo_le_countAttemptsTo (r : String) (l : List Attempt) :
    countSuccessTo r l ≤ countAttemptsTo r l := by
  induction l with
  | nil => simp [countSuccessTo, countAttemptsTo]
  | cons a rest ih =>
    rw [countSuccessTo_cons, countAttemptsTo_cons]
    by_cases h1 : a.recipient = r <;> by_cases h2 : a.success = true <;>
      simp [h1, h2] <;> omega

lemma has_received_record_ne (st : AirdropState) (f : FileState)
    (a amt tx : String) (now : Nat) (so : Bool) (r : String) (h : r ≠ a) :
    (st.record_airdrop f a amt tx now so).state.has_received_airdrop r =
      st.has_received_airdrop r := by
  rw [record_state]
  simp [AirdropState.has_received_airdrop,
    findRecord_mapInsert_ne st.recipients a r _ h]

lemma runLoop_paid (r : String) (evs : List (Except String EventCtx)) :
    ∀ (st : AirdropState) (f : FileState), st.has_received_airdrop r = true →
      countAttemptsTo r (runLoop st f evs).2 = 0 := by
  induction evs with
  | nil => intro st f _; simp [runLoop, countAttemptsTo]
  | cons e rest ih =>
    intro st f h
    rcases e with msg | ctx
    · simp [runLoop, countAttemptsTo]
    rcases processEvent_spec st f ctx with ⟨msg, hpe⟩ | hpe |
      ⟨R, p, l, ho, hR, hpe⟩ | ⟨R, p, l, tx, ho, hR, hpe⟩
    · simp [runLoop, hpe, countAttemptsTo]
    · simp only [runLoop, hpe, List.nil_append]
      exact ih st f h
    · have hne : ¬ (R = r) := fun hh => by rw [hh, h] at hR; cases hR
      simp only [runLoop, hpe, List.singleton_append]
      rw [countAttemptsTo_cons]
      simp only [hne, if_false, Nat.zero_add]
      exact ih st f h
    · have hne : ¬ (R = r) := fun hh => by rw [hh, h] at hR; cases hR
      simp only [runLoop, hpe, List.singleton_append]
      rw [countAttemptsTo_cons]
      simp only [hne, if_false, Nat.zero_add]
      exact ih _ _ (has_received_record_mono st ctx.failedWrite R _ tx ctx.now ctx.saveOk r h)

lemma runLoop_success_bound (r : String) (evs : List (Except String EventCtx)) :
    ∀ (st : AirdropState) (f : FileState),
      countSuccessTo r (runLoop st f evs).2 ≤
        (if st.has_received_airdrop r = true then 0 else 1) := by
  induction evs with
  | nil => intro st f; simp [runLoop, countSuccessTo]
  | cons e rest ih =>
    intro st f
    by_cases h : st.has_received_airdrop r = true
    · have h1 := countSuccessTo_le_countAttemptsTo r (runLoop st f (e :: rest)).2
      have h0 := runLoop_paid r (e :: rest) st f h
      simp only [h, if_true]
      omega
    · rcases e with msg | ctx
      · simp [runLoop, countSuccessTo, h]
      rcases processEvent_spec st f ctx with ⟨msg, hpe⟩ | hpe |
        ⟨R, p, l, ho, hR, hpe⟩ | ⟨R, p, l, tx, ho, hR, hpe⟩
      · simp [runLoop, hpe, countSuccessTo, h]
      · simp only [runLoop, hpe, List.nil_append, h, if_false]
        simpa [h] using ih st f
      · simp only [runLoop, hpe, List.singleton_append, h, if_false]
        rw [countSuccessTo_cons]
        simp only [Bool.false_eq_true, and_false, if_false, Nat.zero_add]
        simpa [h] using ih st f
      · simp only [runLoop, hpe, List.singleton_append, h, if_false]
        rw [countSuccessTo_cons]
        by_cases hRr : R = r
        · subst hRr
          have hrec2 : (st.record_airdrop ctx.failedWrite R (toString airdropAmount) tx
              ctx.now ctx.saveOk).state.has_received_airdrop R = true :=
            has_received_record st ctx.failedWrite R _ tx ctx.now ctx.saveOk
          have h0 := runLoop_paid R rest
            (st.record_airdrop ctx.failedWrite R (toString airdropAmount) tx ctx.now ctx.saveOk).state
            (st.record_airdrop ctx.failedWrite R (toString airdropAmount) tx ctx.now ctx.saveOk).file
            hrec2
          have h1 := countSuccessTo_le_countAttemptsTo R
            (runLoop (st.record_airdrop ctx.failedWrite R (toString airdropAmount) tx
              ctx.now ctx.saveOk).state
             (st.record_airdrop ctx.failedWrite R (toString airdropAmount) tx
              ctx.now ctx.saveOk).file rest).2
          rw [if_pos (show (⟨R, airdropAmount, p, l, true⟩ : Attempt).recipient = R ∧
              (⟨R, airdropAmount, p, l, true⟩ : Attempt).success = true from ⟨rfl, rfl⟩)]
          simp only [Bool.false_eq_true, if_false]
          omega
        · simp only [hRr, false_and, if_false, Nat.zero_add]
          have hpres := has_received_record_ne st ctx.failedWrite R (toString airdropAmount) tx
            ctx.now ctx.saveOk r (fun hh => hRr hh.symm)
          have := ih (st.record_airdrop ctx.failedWrite R (toString airdropAmount) tx
            ctx.now ctx.saveOk).state
            (st.record_airdrop ctx.failedWrite R (toString airdropAmount) tx ctx.now ctx.saveOk).file
          rw [hpres] at this
          simpa [h] using this

/-- C1: once the ledger contains an entry for a recipient (loaded at
startup or recorded after a send), every later event of the run that
resolves to that recipient is skipped with no transaction submitted, and
at most one reward transaction is ever accepted for any recipient: over
any run of the loop from any starting ledger, a recipient already in the
ledger receives zero submissions, and every recipient has at most one
accepted submission. -/
theorem claim_C1 (st : AirdropState) (f : FileState)
    (evs : List (Except String EventCtx)) (r : String) :
    (st.has_received_airdrop r = true → countAttemptsTo r (runLoop st f evs).2 = 0) ∧
    countSuccessTo r (runLoop st f evs).2 ≤ 1 := by
  refine ⟨runLoop_paid r evs st f, ?_⟩
  have hb := runLoop_success_bound r evs st f
  by_cases h : st.has_received_airdrop r = true <;> simp [h] at hb <;> omega

/-- A ledger that already contains recipient 0xA. -/
def exPaidState : AirdropState := ⟨[("0xA", ⟨"0xA", 0, "100", "tx0"⟩)]⟩

/-- An event resolving to recipient 0xA whose chain interactions all
succeed. -/
def exEventA : EventCtx :=
  ⟨.ok "0xA", .ok 1000000000, .ok 50000, .ok "0xdeadbeef", 7, true, .absent⟩

/-- C1 witness: with 0xA already in the ledger, a run observing an event
that resolves to 0xA submits nothing to 0xA. -/
theorem claim_C1_witness :
    countAttemptsTo "0xA" (runLoop exPaidState .absent [.ok exEventA]).2 = 0 :=
  (claim_C1 exPaidState .absent [.ok exEventA] "0xA").1 (by decide)

/-- C3: round-trip of the ledger. Recording with a successful persist
and loading the resulting file in a fresh instance yields a state where
the recipient is marked paid and the stored amount and transaction
reference are exactly the recorded ones. -/
theorem claim_C3 (st : AirdropState) (f : FileState) (r amt ref : String)
    (now : Nat) :
    ∃ st2, AirdropState.load (st.record_airdrop f r amt ref now true).file = some st2 ∧
      st2.has_received_airdrop r = true ∧
      findRecord st2.recipients r = some ⟨r, now, amt, ref⟩ := by
  refine ⟨⟨mapInsert st.recipients r ⟨r, now, amt, ref⟩⟩, ?_, ?_, ?_⟩
  · rw [record_save_true]
    rfl
  · simp [AirdropState.has_received_airdrop, findRecord_mapInsert_self]
  · exact findRecord_mapInsert_self st.recipients r _

/-- C4 counterexample: the claim says an unreadable ledger file yields
an empty ledger, but load on a file that exists and cannot be read goes
through expect, which panics (modelled as none): the process aborts at
startup instead of continuing with an empty ledger. -/
theorem claim_C4_counterexample :
    AirdropState.load .unreadable = none ∧
    AirdropState.load .unreadable ≠ some ⟨[]⟩ := by
  exact ⟨rfl, by decide⟩

/-- C4 amended: a missing ledger file yields an empty ledger and
malformed ledger content yields an empty ledger, and in those cases the
process continues with no prior recipients; but a ledger file that
exists and cannot be read panics the process at startup (the expect call
in load), it does not yield an empty ledger. -/
theorem claim_C4_amended :
    AirdropState.load .absent = some ⟨[]⟩ ∧
    (∀ s, AirdropState.load (.malformed s) = some ⟨[]⟩) ∧
    AirdropState.load .unreadable = none :=
  ⟨rfl, fun _ => rfl, rfl⟩

/-- C6: the gas computations are exact integer arithmetic: a base fee of
1000000000 gives price 1010000000 (plus one percent), and a raw gas
estimate of 50000 gives limit 51000 (plus two percent); the embedding is
over Nat, no floating point is involved. -/
theorem claim_C6 :
    get_minimum_gas_price (.ok 1000000000) = .ok 1010000000 ∧
    estimate_minimum_gas (.ok 50000) = .ok 51000 := by
  exact ⟨rfl, rfl⟩

/-- C9: the Gated-retry decide operation (modelled from the spec, the
variant is absent from src) compares the quoted integer price to the
ceiling inclusively: price at or below the ceiling proceeds, in
particular price equal to the ceiling proceeds, and price above the
ceiling defers with reason price_too_high. -/
theorem claim_C9 (ceiling fixedLimit price : Nat) :
    (price ≤ ceiling →
      gatedRetryDecide ceiling fixedLimit price = ⟨price, fixedLimit, .Proceed⟩) ∧
    (ceiling < price →
      gatedRetryDecide ceiling fixedLimit price =
        ⟨price, fixedLimit, .Defer "price_too_high"⟩) ∧
    gatedRetryDecide ceiling fixedLimit ceiling = ⟨ceiling, fixedLimit, .Proceed⟩ := by
  refine ⟨fun h => ?_, fun h => ?_, ?_⟩
  · rw [gatedRetryDecide, if_pos h]
  · rw [gatedRetryDecide, if_neg (by omega)]
  · rw [gatedRetryDecide, if_pos (Nat.le_refl ceiling)]

/-- C9 witness: ceiling 100, price 100 proceeds; price 101 defers. -/
theorem claim_C9_witness :
    gatedRetryDecide 100 500000 100 = ⟨100, 500000, .Proceed⟩ ∧
    gatedRetryDecide 100 500000 101 = ⟨101, 500000, .Defer "price_too_high"⟩ :=
  ⟨(claim_C9 100 500000 100).1 (by decide), (claim_C9 100 500000 101).2.1 (by decide)⟩

/-- C10: when the subscription stream yields an error item, the Some-Ok
pattern of the while-let fails, so the loop exits at once: the state is
left as it is, no submission is made, the remaining items are never
processed, and main returns Ok. -/
theorem claim_C10 (st : AirdropState) (f : FileState) (e : String)
    (rest : List (Except String EventCtx)) :
    runLoop st f (.error e :: rest) = (.ok (st, f), []) := rfl

/-- Tests whether an Except value is in the ok constructor. -/
def excIsOk {α β : Type} : Except α β → Bool
  | .ok _ => true
  | .error _ => false

lemma runLoop_cons_next (st st2 : AirdropState) (f f2 : FileState) (ctx : EventCtx)
    (rest : List (Except String EventCtx)) (sends : List Attempt)
    (h : processEvent st f ctx = (.next st2 f2, sends)) :
    runLoop st f (.ok ctx :: rest) =
      ((runLoop st2 f2 rest).1, sends ++ (runLoop st2 f2 rest).2) := by
  simp [runLoop, h]

lemma processEvent_gas_ok (st : AirdropState) (f : FileState) (ctx : EventCtx)
    (hb : excIsOk ctx.basefee = true) (hg : excIsOk ctx.gasEstimate = true) :
    ∃ st2 f2 sends, processEvent st f ctx = (.next st2 f2, sends) := by
  rcases ho : ctx.ownerOf with e | owner
  · exact ⟨st, f, [], by simp [processEvent, ho]⟩
  by_cases hp : st.has_received_airdrop owner
  · exact ⟨st, f, [], by simp [processEvent, ho, hp]⟩
  rcases hbq : ctx.basefee with e | bf
  · rw [hbq] at hb; simp [excIsOk] at hb
  rcases hgq : ctx.gasEstimate with e | ge
  · rw [hgq] at hg; simp [excIsOk] at hg
  rcases hs : ctx.submission with e | tx
  · exact ⟨st, f, [⟨owner, airdropAmount, bf + bf / 100, ge + ge / 50, false⟩], by
      simp [processEvent, ho, hp, get_minimum_gas_price, hbq, estimate_minimum_gas,
        hgq, send_airdrop, hs]⟩
  · exact ⟨(st.record_airdrop ctx.failedWrite owner (toString airdropAmount) tx ctx.now ctx.saveOk).state,
      (st.record_airdrop ctx.failedWrite owner (toString airdropAmount) tx ctx.now ctx.saveOk).file,
      [⟨owner, airdropAmount, bf + bf / 100, ge + ge / 50, true⟩], by
      simp [processEvent, ho, hp, get_minimum_gas_price, hbq, estimate_minimum_gas,
        hgq, send_airdrop, hs]⟩

/-- First record of 0xA with amount 1. -/
def exRec1 : RecordOut := (⟨[]⟩ : AirdropState).record_airdrop .absent "0xA" "1" "tx1" 0 true

/-- Second record of the same recipient 0xA with amount 2. -/
def exRec2 : RecordOut := exRec1.state.record_airdrop exRec1.file "0xA" "2" "tx2" 1 true

/-- C2 counterexample: a second record_airdrop for an already-paid
recipient is not rejected and is not a no-op: it silently replaces the
existing entry, mutating the stored amount from 1 to 2 (and the
reference and timestamp), with no error or warning raised. -/
theorem claim_C2_counterexample :
    exRec1.state.recipients = [("0xA", ⟨"0xA", 0, "1", "tx1"⟩)] ∧
    exRec2.state.recipients = [("0xA", ⟨"0xA", 1, "2", "tx2"⟩)] ∧
    exRec2.warned = false := by decide

/-- C2 amended: record_airdrop itself never rejects a second record for
an already-paid recipient: it silently overwrites the existing entry
with the new amount, reference and timestamp. Entries are append-only
only at the orchestration level: because the event loop checks
has_received_airdrop before sending and recording, processing an event
never changes the stored entry of an already-paid recipient, so within
the loop an entry is immutable once set. -/
theorem claim_C2_amended (st : AirdropState) (f f2 : FileState) (ctx : EventCtx)
    (r amt tx : String) (now : Nat) (so : Bool)
    (h : st.has_received_airdrop r = true) :
    findRecord (st.record_airdrop f2 r amt tx now so).state.recipients r =
      some ⟨r, now, amt, tx⟩ ∧
    ∀ st2 fx, (processEvent st f ctx).1 = .next st2 fx →
      findRecord st2.recipients r = findRecord st.recipients r := by
  constructor
  · rw [record_state]
    exact findRecord_mapInsert_self st.recipients r _
  · intro st2 fx hnext
    rcases processEvent_spec st f ctx with ⟨msg, hpe⟩ | hpe |
      ⟨R, p, l, ho, hR, hpe⟩ | ⟨R, p, l, txh, ho, hR, hpe⟩
    · rw [hpe] at hnext
      cases hnext
    · rw [hpe] at hnext
      have h2 : StepOut.next st f = StepOut.next st2 fx := hnext
      injection h2 with h2a h2b
      rw [← h2a]
    · rw [hpe] at hnext
      have h2 : StepOut.next st f = StepOut.next st2 fx := hnext
      injection h2 with h2a h2b
      rw [← h2a]
    · rw [hpe] at hnext
      have hne : r ≠ R := fun hh => by rw [hh] at h; rw [h] at hR; cases hR
      have h2 : StepOut.next
          (st.record_airdrop ctx.failedWrite R (toString airdropAmount) txh ctx.now ctx.saveOk).state
          (st.record_airdrop ctx.failedWrite R (toString airdropAmount) txh ctx.now ctx.saveOk).file =
          StepOut.next st2 fx := hnext
      injection h2 with h2a h2b
      rw [← h2a, record_state]
      exact findRecord_mapInsert_ne st.recipients R r _ hne

/-- C2 amended witness: recording again for the already-paid 0xA
replaces its entry with the new amount 9. -/
theorem claim_C2_amended_witness :
    findRecord (exPaidState.record_airdrop .absent "0xA" "9" "tx9" 3 true).state.recipients
      "0xA" = some ⟨"0xA", 3, "9", "tx9"⟩ :=
  (claim_C2_amended exPaidState .absent .absent exEventA "0xA" "9" "tx9" 3 true
    (by decide)).1

/-- An event whose base-fee query fails. -/
def exGasFailCtx : EventCtx :=
  ⟨.ok "0xB", .error "rpc down", .ok 50000, .ok "0xhash", 0, true, .absent⟩

/-- C5 counterexample: a gas-price query failure while processing one
event is not contained: the question-mark operator propagates it out of
the loop, main returns the error, and the following event is never
processed (no submission is made for it). -/
theorem claim_C5_counterexample :
    (runLoop ⟨[]⟩ .absent [.ok exGasFailCtx, .ok exEventA]).1 = .error "rpc down" ∧
    (runLoop ⟨[]⟩ .absent [.ok exGasFailCtx, .ok exEventA]).2 = [] := ⟨rfl, rfl⟩

/-- C5 amended: per-event resolution failures, submission failures and
ledger-persist failures are contained within the event processing and
never interrupt the outer loop: whenever the gas-price and gas-estimate
queries succeed, the iteration ends in the continue outcome whatever the
other failures, and the loop goes on with the remaining events; only a
gas-price or gas-estimate query failure aborts the loop, making main
return that error. -/
theorem claim_C5_amended (st : AirdropState) (f : FileState) (ctx : EventCtx)
    (rest : List (Except String EventCtx))
    (hb : excIsOk ctx.basefee = true) (hg : excIsOk ctx.gasEstimate = true) :
    ∃ st2 f2, (processEvent st f ctx).1 = .next st2 f2 ∧
      (runLoop st f (.ok ctx :: rest)).1 = (runLoop st2 f2 rest).1 := by
  obtain ⟨st2, f2, sends, hpe⟩ := processEvent_gas_ok st f ctx hb hg
  exact ⟨st2, f2, by rw [hpe], by rw [runLoop_cons_next st st2 f f2 ctx rest sends hpe]⟩

/-- C5 amended witness: an event with successful gas queries ends in the
continue outcome and the loop moves on. -/
theorem claim_C5_amended_witness :
    ∃ st2 f2, (processEvent ⟨[]⟩ .absent exEventA).1 = .next st2 f2 ∧
      (runLoop ⟨[]⟩ .absent [.ok exEventA]).1 = (runLoop st2 f2 []).1 :=
  claim_C5_amended ⟨[]⟩ .absent exEventA [] (by decide) (by decide)

/-- C7 counterexample: the claim says a persist failure is reported to
the caller of record. The spec-shaped record carries the failure in its
return value, but the code record_airdrop returns unit: its only
caller-visible outcome, the mutated in-memory state, is identical
whether the save succeeded or failed (here the failed write leaves a
partial, unparsable file), and the failure surfaces only as a printed
warning. -/
theorem claim_C7_counterexample :
    specRecordResult false = .error "persist failed" ∧
    ((⟨[]⟩ : AirdropState).record_airdrop (.malformed "tru") "0xA" "5" "tx" 0 false).state =
      ((⟨[]⟩ : AirdropState).record_airdrop .absent "0xA" "5" "tx" 0 true).state ∧
    ((⟨[]⟩ : AirdropState).record_airdrop (.malformed "tru") "0xA" "5" "tx" 0 false).warned
      = true :=
  ⟨rfl, rfl, rfl⟩

/-- C7 amended: when the persist step of record_airdrop fails, the
failure is only logged as a warning (record returns nothing to its
caller) and the state file is left in whatever state the failed,
non-atomic write produced — possibly partially written, not necessarily
the previous content; the in-memory insertion is not undone: the
recipient is marked paid for the remainder of the run, so no later event
of the run submits anything to that recipient. -/
theorem claim_C7_amended (st : AirdropState) (leftover : FileState)
    (r amt tx : String) (now : Nat) :
    (st.record_airdrop leftover r amt tx now false).warned = true ∧
    (st.record_airdrop leftover r amt tx now false).file = leftover ∧
    (st.record_airdrop leftover r amt tx now false).state.has_received_airdrop r = true ∧
    ∀ evs f2, countAttemptsTo r
      (runLoop (st.record_airdrop leftover r amt tx now false).state f2 evs).2 = 0 := by
  have hr := record_save_false st leftover r amt tx now
  exact ⟨by rw [hr], by rw [hr], has_received_record st leftover r amt tx now false,
    fun evs f2 => runLoop_paid r evs _ f2
      (has_received_record st leftover r amt tx now false)⟩

/-- C8: when the submission of an event is rejected, the ledger is left
unchanged (no record is created for that recipient), exactly one
submission was made for the event (the dispatcher never resubmits), and
the loop continues with the next events. -/
theorem claim_C8 (st : AirdropState) (f : FileState) (ctx : EventCtx)
    (rest : List (Except String EventCtx)) (r e : String) (bf ge : Nat)
    (ho : ctx.ownerOf = .ok r) (hp : st.has_received_airdrop r = false)
    (hb : ctx.basefee = .ok bf) (hg : ctx.gasEstimate = .ok ge)
    (hs : ctx.submission = .error e) :
    processEvent st f ctx =
      (.next st f, [⟨r, airdropAmount, bf + bf / 100, ge + ge / 50, false⟩]) ∧
    runLoop st f (.ok ctx :: rest) =
      ((runLoop st f rest).1,
        ⟨r, airdropAmount, bf + bf / 100, ge + ge / 50, false⟩ :: (runLoop st f rest).2) := by
  have hpe : processEvent st f ctx =
      (.next st f, [⟨r, airdropAmount, bf + bf / 100, ge + ge / 50, false⟩]) := by
    simp [processEvent, ho, hp, get_minimum_gas_price, hb, estimate_minimum_gas, hg,
      send_airdrop, hs]
  refine ⟨hpe, ?_⟩
  rw [runLoop_cons_next st st f f ctx rest _ hpe]
  rw [List.singleton_append]

/-- An event whose submission is rejected by the node. -/
def exSendFailCtx : EventCtx :=
  ⟨.ok "0xC", .ok 1000000000, .ok 50000, .error "insufficient funds", 5, true, .absent⟩

/-- C8 witness: a rejected submission leaves the empty ledger empty,
makes exactly one attempt, and the loop goes on. -/
theorem claim_C8_witness :
    processEvent ⟨[]⟩ .absent exSendFailCtx =
      (.next ⟨[]⟩ .absent, [⟨"0xC", airdropAmount, 1010000000, 51000, false⟩]) :=
  (claim_C8 ⟨[]⟩ .absent exSendFailCtx [] "0xC" "insufficient funds" 1000000000 50000
    rfl (by decide) rfl rfl rfl).1
